import Mathlib

/-!
A shallow embedding of the HTTP/2 request-engine scheduler ("engine shed",
`h2_ngn_shed.c`): the per-connection subsystem that routes incoming HTTP/2
stream requests to named processing engines, enforces per-engine admission
capacity, and reconciles accounting on engine shutdown and connection abort.

Modelling conventions:
- `apr_uint32_t` counters are `Nat` with explicit wrap-around (`% 2^32`) where
  the C code increments or decrements them.
- The APR hash `shed->ngns` (type name -> engine) is an association list of
  `String × Nat`, where the `Nat` is an engine key into the engine store.
- Engine pointers are keys (`Nat`) into an engine store; the per-shed
  monotone `next_ngn_id` supplies fresh keys, and C pointer comparison of
  engines of one shed (`existing == ngn` in `h2_ngn_shed_done_ngn`) becomes
  key equality.
- `h2_task` objects are external to the scheduler; the task heap is a total
  function from task id to a record of the fields the scheduler reads or
  writes (`ser_headers`, `frozen`, the output-closed state, and the
  `task->engine` link).
- Functions that in C dereference an engine pointer return `Option`, with
  `none` modelling a dangling engine key (undefined behaviour in C, never
  reached by real traces).
-/

namespace NgnShed

/-- APR status codes distinguished by the scheduler: `APR_SUCCESS`,
`APR_EOF`, `APR_EAGAIN`, `APR_ECONNABORTED`, and any other status an
engine initializer may return. -/
inductive AprStatus where
  | success
  | eof
  | eagain
  | econnaborted
  | other (code : Nat)
deriving DecidableEq, Repr

/-- The fields of an external `h2_task` that the scheduler reads or writes:
`task->ser_headers`, `task->frozen`, the task output's closed state
(written through `h2_task_output_close`), and the `task->engine` link. -/
structure Task where
  ser_headers : Bool
  frozen : Bool
  outputClosed : Bool
  engine : Option Nat
deriving DecidableEq, Repr

/-- An external `request_rec`, reduced to its identity and the task the
HTTP/2 layer has linked to it (what `h2_ctx_rget_task(r)` returns). -/
structure RequestRec where
  rid : Nat
  ctxTask : Nat
deriving DecidableEq, Repr

/-- `h2_ngn_entry`: one pending queue entry, a (task, request) pair. -/
structure Entry where
  task : Nat
  r : RequestRec
deriving DecidableEq, Repr

/-- `h2_req_engine`: a named, typed engine with its pending queue and
accounting counters.  The APR ring `entries` is a Lean list in ring order
(head = ring first). -/
@[ext]
structure Engine where
  id : String
  type : String
  taskOf : Option Nat
  shutdown : Bool
  entries : List Entry
  capacity : Nat
  no_assigned : Nat
  no_live : Nat
  no_finished : Nat
deriving DecidableEq, Repr

/-- `h2_ngn_shed` together with the heap it reaches: the engine store, the
type-name hash, the id sequence, the abort flag, and the external task heap. -/
structure ShedState where
  cId : Int
  reqBufferSize : Nat
  ngnStore : List (Nat × Engine)
  ngns : List (String × Nat)
  nextNgnId : Nat
  aborted : Bool
  tasks : Nat → Task

/-- 2^32, the modulus of `apr_uint32_t` arithmetic. -/
def u32mod : Nat := 4294967296

/-- Truncation to `apr_uint32_t`. -/
def u32 (n : Nat) : Nat := n % u32mod

/-- `apr_uint32_t` decrement (`x--`), wrapping at zero. -/
def u32dec (n : Nat) : Nat := (n + (u32mod - 1)) % u32mod

/-- Engine store lookup (dereference of an engine pointer). -/
def ngnLookup : List (Nat × Engine) → Nat → Option Engine
  | [], _ => none
  | (k, e) :: rest, j => if k = j then some e else ngnLookup rest j

/-- In-place mutation of the engine a key points to. -/
def storeUpdate (st : List (Nat × Engine)) (k : Nat) (f : Engine → Engine) :
    List (Nat × Engine) :=
  st.map (fun p => (p.1, if p.1 = k then f p.2 else p.2))

/-- Mutate one engine of the shed in place. -/
def updateEngine (s : ShedState) (k : Nat) (f : Engine → Engine) : ShedState :=
  { s with ngnStore := storeUpdate s.ngnStore k f }

/-- `apr_hash_get` on the type-name hash. -/
def hashGet : List (String × Nat) → String → Option Nat
  | [], _ => none
  | (ty, k) :: rest, t => if ty = t then some k else hashGet rest t

/-- `apr_hash_set` with a non-NULL value: bind (or replace) a type name. -/
def hashSet (m : List (String × Nat)) (ty : String) (k : Nat) :
    List (String × Nat) :=
  (ty, k) :: m

/-- `apr_hash_set` with value NULL: remove a type name's binding. -/
def hashDel (m : List (String × Nat)) (ty : String) : List (String × Nat) :=
  m.filter (fun p => decide (p.1 ≠ ty))

/-- Point update of the external task heap. -/
def setTaskState (s : ShedState) (tid : Nat) (f : Task → Task) : ShedState :=
  { s with tasks := fun t => if t = tid then f (s.tasks t) else s.tasks t }

/-- Modelled from the spec: `h2_task_freeze` is supplied by the external
Task/Request bridge (spec section 6), which is not part of this repository
slice; per the spec it suspends the request's direct I/O, recorded here as
the task's `frozen` flag. -/
def h2_task_freeze (s : ShedState) (tid : Nat) : ShedState :=
  setTaskState s tid (fun t => { t with frozen := true })

/-- Modelled from the spec: `h2_task_output_close` (the bridge's
`close_output`) is not part of this repository slice; per the spec it
force-terminates the request's output, recorded here as `outputClosed`. -/
def h2_task_output_close (s : ShedState) (tid : Nat) : ShedState :=
  setTaskState s tid (fun t => { t with outputClosed := true })

/-- `h2_ngn_shed_create`: fresh shed with an empty engine hash.  The task
heap is the ambient external state. -/
def h2_ngn_shed_create (cId : Int) (req_buffer_size : Nat) (tasks : Nat → Task) :
    ShedState :=
  { cId := cId, reqBufferSize := u32 req_buffer_size, ngnStore := [], ngns := [],
    nextNgnId := 0, aborted := false, tasks := tasks }

/-- `h2_ngn_shed_abort`: set the sticky abort flag. -/
def h2_ngn_shed_abort (s : ShedState) : ShedState :=
  { s with aborted := true }

/-- The engine initializer callback supplied by the caller of push:
arguments are the new engine's id, its type name, the shed's request
buffer size and the triggering request (pool and engine pointer are
opaque to this model). -/
def EInit : Type := String → String → Nat → RequestRec → AprStatus

/-- The engine-creation tail of `h2_ngn_shed_push_req` (from the line
`if (einit)` on): allocate a new engine with a generated id, capacity 100,
`no_assigned = 1`, `no_live = 1` and an empty ring, run the initializer,
and register the engine (and link it to the task) only on success. -/
def push_create (s : ShedState) (ngn_type : String) (tid : Nat) (r : RequestRec)
    (einit : Option EInit) : AprStatus × ShedState :=
  match einit with
  | none => (.eof, s)
  | some f =>
    let k := s.nextNgnId
    let nid := "ngn-" ++ toString s.cId ++ "-" ++ toString k
    let s1 : ShedState := { s with nextNgnId := k + 1 }
    let status := f nid ngn_type s1.reqBufferSize r
    if status = .success then
      let newngn : Engine :=
        { id := nid, type := ngn_type, taskOf := some tid, shutdown := false,
          entries := [], capacity := 100, no_assigned := 1, no_live := 1,
          no_finished := 0 }
      let s2 := setTaskState s1 tid (fun t => { t with engine := some k })
      (status, { s2 with ngnStore := (k, newngn) :: s2.ngnStore,
                         ngns := hashSet s2.ngns ngn_type k })
    else (status, s1)

/-- `h2_ngn_shed_push_req`: admission.  A task demanding serialized headers
is refused with `APR_EOF`; otherwise the engine registered under the type,
if any, accepts the request when it is neither shut down nor at capacity
(freeze the task, append the entry, bump `no_assigned`); in every other
case control falls through to engine creation. -/
def h2_ngn_shed_push_req (s : ShedState) (ngn_type : String) (tid : Nat)
    (r : RequestRec) (einit : Option EInit) : Option (AprStatus × ShedState) :=
  if (s.tasks tid).ser_headers then some (.eof, s)
  else
    match hashGet s.ngns ngn_type with
    | none => some (push_create s ngn_type tid r einit)
    | some k =>
      match ngnLookup s.ngnStore k with
      | none => none
      | some ngn =>
        if ngn.shutdown then some (push_create s ngn_type tid r einit)
        else if ngn.capacity ≤ ngn.no_assigned then
          some (push_create s ngn_type tid r einit)
        else
          let s1 := h2_task_freeze s tid
          let s2 := updateEngine s1 k (fun e =>
            { e with entries := e.entries ++ [{ task := tid, r := r }],
                     no_assigned := u32 (e.no_assigned + 1) })
          some (.success, s2)

/-- `pop_non_frozen`: scan the ring in order for the first entry whose task
is not frozen; remove exactly that entry, leaving the rest in place. -/
def pop_non_frozen (tasks : Nat → Task) : List Entry → Option (Entry × List Entry)
  | [] => none
  | en :: rest =>
    if (tasks en.task).frozen then
      match pop_non_frozen tasks rest with
      | some (x, rest') => some (x, en :: rest')
      | none => none
    else some (en, rest)

/-- `h2_ngn_shed_pull_req`: an engine worker draining its queue.  On an
aborted shed the engine is shut down and the call fails with
`APR_ECONNABORTED` before the capacity update; otherwise the capacity is
set from the caller, an empty queue yields `APR_EOF`/`APR_EAGAIN`
(optionally shutting the engine down), and a non-empty queue is scanned
for the first non-frozen entry. -/
def h2_ngn_shed_pull_req (s : ShedState) (k : Nat) (capacity : Nat)
    (want_shutdown : Bool) : Option (AprStatus × Option RequestRec × ShedState) :=
  match ngnLookup s.ngnStore k with
  | none => none
  | some ngn0 =>
    if s.aborted then
      some (.econnaborted, none,
            updateEngine s k (fun _ => { ngn0 with shutdown := true }))
    else
      if ngn0.entries.isEmpty then
        some ((if want_shutdown || ngn0.shutdown then AprStatus.eof
               else AprStatus.eagain), none,
              updateEngine s k (fun _ =>
                { ngn0 with capacity := u32 capacity,
                            shutdown := want_shutdown || ngn0.shutdown }))
      else
        match pop_non_frozen s.tasks ngn0.entries with
        | some (entry, rest) =>
          some (.success, some entry.r,
                updateEngine s k (fun _ =>
                  { ngn0 with capacity := u32 capacity, entries := rest,
                              no_live := u32 (ngn0.no_live + 1) }))
        | none =>
          some (.eagain, none,
                updateEngine s k (fun _ => { ngn0 with capacity := u32 capacity }))

/-- `ngn_done_task`: bump `no_finished`, drop `no_live` if the request was
live, drop `no_assigned`, and close the task's output when requested.
(The status returned by the C function is always `APR_SUCCESS`.) -/
def ngn_done_task_core (s : ShedState) (k : Nat) (tid : Nat)
    (waslive close : Bool) : ShedState :=
  let s1 := updateEngine s k (fun e =>
    { e with no_finished := u32 (e.no_finished + 1),
             no_live := if waslive then u32dec e.no_live else e.no_live,
             no_assigned := u32dec e.no_assigned })
  if close then h2_task_output_close s1 tid else s1

/-- `h2_ngn_shed_done_task`: a worker reports one previously-live request
finished. -/
def h2_ngn_shed_done_task (s : ShedState) (k : Nat) (tid : Nat) :
    Option (AprStatus × ShedState) :=
  match ngnLookup s.ngnStore k with
  | none => none
  | some _ => some (.success, ngn_done_task_core s k tid true false)

/-- The drain loop of `h2_ngn_shed_done_ngn`: walk the entry ring in order
and finish each queued entry as aborted (`waslive = 0`, output closed),
without removing the entries from the ring. -/
def drainEntries (k : Nat) : List Entry → ShedState → ShedState
  | [], s => s
  | en :: rest, s =>
    drainEntries k rest (ngn_done_task_core s k en.r.ctxTask false true)

/-- The registry tail of `h2_ngn_shed_done_ngn`: look the engine's type up
in the hash and remove the binding only if it still points at this very
engine (C pointer comparison `existing == ngn`, here key comparison). -/
def doneNgnRegistry (s : ShedState) (ty : String) (k : Nat) : ShedState :=
  match hashGet s.ngns ty with
  | some k' => if k' = k then { s with ngns := hashDel s.ngns ty } else s
  | none => s

/-- `h2_ngn_shed_done_ngn`: an engine worker exits.  If the shed is not
aborted and entries are still queued, each is forcibly finished (without
being removed from the ring); then the engine is removed from the type
hash only if it is still the engine registered under its type. -/
def h2_ngn_shed_done_ngn (s : ShedState) (k : Nat) : Option ShedState :=
  match ngnLookup s.ngnStore k with
  | none => none
  | some ngn =>
    some (doneNgnRegistry
      (if s.aborted = false ∧ ngn.entries ≠ [] then drainEntries k ngn.entries s
       else s)
      ngn.type k)

/-- One mutating operation on a shed, by any of the contexts that share it
(the connection context or an engine worker); `env` is an external change
to the task heap (for example a thaw by the task layer). -/
inductive ShedStep : ShedState → ShedState → Prop where
  | push (s : ShedState) (ty : String) (tid : Nat) (r : RequestRec)
      (ei : Option EInit) (st : AprStatus) (s' : ShedState) :
      h2_ngn_shed_push_req s ty tid r ei = some (st, s') → ShedStep s s'
  | pull (s : ShedState) (k cap : Nat) (w : Bool) (st : AprStatus)
      (pr : Option RequestRec) (s' : ShedState) :
      h2_ngn_shed_pull_req s k cap w = some (st, pr, s') → ShedStep s s'
  | doneTask (s : ShedState) (k tid : Nat) (st : AprStatus) (s' : ShedState) :
      h2_ngn_shed_done_task s k tid = some (st, s') → ShedStep s s'
  | doneNgn (s : ShedState) (k : Nat) (s' : ShedState) :
      h2_ngn_shed_done_ngn s k = some s' → ShedStep s s'
  | abort (s : ShedState) : ShedStep s (h2_ngn_shed_abort s)
  | env (s : ShedState) (ts : Nat → Task) : ShedStep s { s with tasks := ts }

/-- No registered engine of the given type can accept another request:
either no engine is registered under the type, or the registered one is
shutting down or at capacity (the fall-through conditions of push). -/
def noCapacity (s : ShedState) (ty : String) : Prop :=
  ∀ k, hashGet s.ngns ty = some k →
    ∃ ngn, ngnLookup s.ngnStore k = some ngn ∧
      (ngn.shutdown = true ∨ ngn.capacity ≤ ngn.no_assigned)

/-- The engine record `push_create` allocates before running the
initializer: generated id, capacity 100, `no_assigned = no_live = 1`,
empty ring. -/
def newEngine (s : ShedState) (ty : String) (tid : Nat) : Engine :=
  { id := "ngn-" ++ toString s.cId ++ "-" ++ toString s.nextNgnId, type := ty,
    taskOf := some tid, shutdown := false, entries := [], capacity := 100,
    no_assigned := 1, no_live := 1, no_finished := 0 }

/-! Concrete fixtures for running the operations on closed inputs. -/

/-- Example task heap: task 9 demands serialized headers, task 5 is frozen,
every other task is idle. -/
def egTasks : Nat → Task := fun t =>
  { ser_headers := t == 9, frozen := t == 5, outputClosed := false,
    engine := none }

def r0 : RequestRec := { rid := 0, ctxTask := 0 }

def r1 : RequestRec := { rid := 1, ctxTask := 1 }

def r2 : RequestRec := { rid := 2, ctxTask := 2 }

def r5 : RequestRec := { rid := 5, ctxTask := 5 }

/-- An initializer that always succeeds. -/
def einitOk : EInit := fun _ _ _ _ => .success

/-- A concrete engine with two queued entries, the first of them frozen. -/
def engA : Engine :=
  { id := "ngn-7-0", type := "cgi", taskOf := some 0, shutdown := false,
    entries := [{ task := 5, r := r5 }, { task := 1, r := r1 }],
    capacity := 100, no_assigned := 3, no_live := 1, no_finished := 0 }

/-- A concrete shed owning `engA` under type "cgi". -/
def shedA : ShedState :=
  { cId := 7, reqBufferSize := 1000, ngnStore := [(0, engA)],
    ngns := [("cgi", 0)], nextNgnId := 1, aborted := false, tasks := egTasks }

/-- A concrete engine with an empty pending queue. -/
def engB : Engine :=
  { id := "ngn-7-0", type := "cgi", taskOf := some 0, shutdown := false,
    entries := [], capacity := 100, no_assigned := 1, no_live := 1,
    no_finished := 0 }

/-- A concrete shed owning the empty-queued `engB` under type "cgi". -/
def shedB : ShedState :=
  { cId := 7, reqBufferSize := 1000, ngnStore := [(0, engB)],
    ngns := [("cgi", 0)], nextNgnId := 1, aborted := false, tasks := egTasks }

/-- A fresh shed for connection 7. -/
def shed0 : ShedState := h2_ngn_shed_create 7 1000 egTasks

/-- `shed0` after pushing task 0 (type "cgi") with a succeeding initializer:
one engine "ngn-7-0" with `no_assigned = no_live = 1` and an empty queue. -/
def shed1 : ShedState :=
  ((h2_ngn_shed_push_req shed0 "cgi" 0 r0 (some einitOk)).getD (.eof, shed0)).2

/-- `shed1` after pushing task 1 into the same engine: the entry is queued
and `no_assigned = 2`. -/
def shed2 : ShedState :=
  ((h2_ngn_shed_push_req shed1 "cgi" 1 r1 none).getD (.eof, shed1)).2

/-- `shed2` after the engine worker exits with one entry still queued. -/
def shed2done : ShedState := (h2_ngn_shed_done_ngn shed2 0).getD shed2

/-- `shedA` after a pull that skips the frozen head entry. -/
def shedApulled : ShedState :=
  ((h2_ngn_shed_pull_req shedA 0 10 false).getD (.eagain, none, shedA)).2.2

/-- `shedA` after the engine worker exits with two entries still queued. -/
def shedAdone : ShedState := (h2_ngn_shed_done_ngn shedA 0).getD shedA

/-- The engine record left in `shed2done`'s store: its queue still holds
the entry for task 1 although its counters were reconciled. -/
def shed2doneEngine : Engine :=
  { id := "ngn-7-0", type := "cgi", taskOf := some 0, shutdown := false,
    entries := [{ task := 1, r := r1 }], capacity := 100, no_assigned := 1,
    no_live := 1, no_finished := 1 }

/-! The accounting invariant. -/

/-- The accounting equation of the spec: `no_assigned` equals the entries
currently queued plus the entries currently live. -/
@[reducible] def engine_acct (e : Engine) : Prop :=
  e.no_assigned = e.entries.length + e.no_live

/-- Inductive strengthening of the accounting equation by the u32 range
facts that keep the counter arithmetic of the C code exact. -/
@[reducible] def EngineOk (e : Engine) : Prop :=
  engine_acct e ∧ e.no_assigned < u32mod ∧ e.capacity < u32mod

/-- Every engine registered in the shed's type hash resolves to a store
entry of that type, has a key below the shed's id sequence, and satisfies
the accounting invariant. -/
def ShedOk (s : ShedState) : Prop :=
  ∀ ty k, hashGet s.ngns ty = some k →
    k < s.nextNgnId ∧
    ∃ e, ngnLookup s.ngnStore k = some e ∧ e.type = ty ∧ EngineOk e

/-! Basic lemmas about the store, hash and counter helpers. -/

theorem u32_eq_of_lt {n : Nat} (h : n < u32mod) : u32 n = n :=
  Nat.mod_eq_of_lt h

theorem u32_lt (n : Nat) : u32 n < u32mod :=
  Nat.mod_lt _ (by decide)

theorem u32dec_eq {n : Nat} (h0 : 0 < n) (h1 : n < u32mod) : u32dec n = n - 1 := by
  unfold u32dec
  have hn : n + (u32mod - 1) = u32mod + (n - 1) := by omega
  rw [hn, Nat.add_mod_left]
  exact Nat.mod_eq_of_lt (by omega)

@[simp] theorem updateEngine_ngns (s : ShedState) (k : Nat) (f : Engine → Engine) :
    (updateEngine s k f).ngns = s.ngns := rfl

@[simp] theorem updateEngine_tasks (s : ShedState) (k : Nat) (f : Engine → Engine) :
    (updateEngine s k f).tasks = s.tasks := rfl

@[simp] theorem updateEngine_aborted (s : ShedState) (k : Nat) (f : Engine → Engine) :
    (updateEngine s k f).aborted = s.aborted := rfl

@[simp] theorem updateEngine_nextNgnId (s : ShedState) (k : Nat) (f : Engine → Engine) :
    (updateEngine s k f).nextNgnId = s.nextNgnId := rfl

@[simp] theorem updateEngine_store (s : ShedState) (k : Nat) (f : Engine → Engine) :
    (updateEngine s k f).ngnStore = storeUpdate s.ngnStore k f := rfl

@[simp] theorem setTaskState_ngns (s : ShedState) (tid : Nat) (f : Task → Task) :
    (setTaskState s tid f).ngns = s.ngns := rfl

@[simp] theorem setTaskState_store (s : ShedState) (tid : Nat) (f : Task → Task) :
    (setTaskState s tid f).ngnStore = s.ngnStore := rfl

@[simp] theorem setTaskState_aborted (s : ShedState) (tid : Nat) (f : Task → Task) :
    (setTaskState s tid f).aborted = s.aborted := rfl

@[simp] theorem setTaskState_nextNgnId (s : ShedState) (tid : Nat) (f : Task → Task) :
    (setTaskState s tid f).nextNgnId = s.nextNgnId := rfl

@[simp] theorem setTaskState_tasks_self (s : ShedState) (tid : Nat) (f : Task → Task) :
    (setTaskState s tid f).tasks tid = f (s.tasks tid) := by
  simp [setTaskState]

theorem setTaskState_tasks_other (s : ShedState) (tid t : Nat) (f : Task → Task)
    (h : t ≠ tid) : (setTaskState s tid f).tasks t = s.tasks t := by
  simp [setTaskState, h]

theorem ngnLookup_storeUpdate (st : List (Nat × Engine)) (k j : Nat)
    (f : Engine → Engine) :
    ngnLookup (storeUpdate st k f) j =
      if j = k then (ngnLookup st j).map f else ngnLookup st j := by
  induction st with
  | nil => simp [storeUpdate, ngnLookup]
  | cons p rest ih =>
    obtain ⟨k', e⟩ := p
    have hcons : storeUpdate ((k', e) :: rest) k f =
        (k', if k' = k then f e else e) :: storeUpdate rest k f := rfl
    rw [hcons]
    by_cases hj : k' = j
    · subst hj
      by_cases hk : k' = k
      · subst hk
        simp [ngnLookup]
      · have hk' : ¬ k' = k := hk
        simp [ngnLookup, hk']
    · simp only [ngnLookup, hj, if_false]
      rw [ih]

theorem ngnLookup_storeUpdate_self (st : List (Nat × Engine)) (k : Nat)
    (f : Engine → Engine) :
    ngnLookup (storeUpdate st k f) k = (ngnLookup st k).map f := by
  simp [ngnLookup_storeUpdate]

theorem ngnLookup_storeUpdate_other (st : List (Nat × Engine)) (k j : Nat)
    (f : Engine → Engine) (h : j ≠ k) :
    ngnLookup (storeUpdate st k f) j = ngnLookup st j := by
  simp [ngnLookup_storeUpdate, h]

theorem hashGet_hashSet (m : List (String × Nat)) (ty t : String) (k : Nat) :
    hashGet (hashSet m ty k) t = if ty = t then some k else hashGet m t := by
  simp [hashSet, hashGet]

theorem hashGet_hashDel (m : List (String × Nat)) (ty t : String) :
    hashGet (hashDel m ty) t = if t = ty then none else hashGet m t := by
  induction m with
  | nil => simp [hashDel, hashGet]
  | cons p rest ih =>
    obtain ⟨ty', k'⟩ := p
    by_cases h1 : ty' = ty
    · subst h1
      have hcons : hashDel ((ty', k') :: rest) ty' = hashDel rest ty' := by
        simp [hashDel]
      rw [hcons, ih]
      by_cases h2 : t = ty'
      · simp [h2]
      · have h2' : ¬ ty' = t := fun h => h2 h.symm
        simp [h2, hashGet, h2']
    · have hcons : hashDel ((ty', k') :: rest) ty =
          (ty', k') :: hashDel rest ty := by
        simp [hashDel, h1]
      rw [hcons]
      by_cases h2 : ty' = t
      · subst h2
        simp [hashGet, h1]
      · simp only [hashGet, h2, if_false]
        rw [ih]

/-! Lemmas about the non-frozen scan. -/

theorem pop_non_frozen_of_split (ts : Nat → Task) (l1 : List Entry) :
    ∀ (en : Entry) (l2 : List Entry),
      (∀ x ∈ l1, (ts x.task).frozen = true) → (ts en.task).frozen = false →
      pop_non_frozen ts (l1 ++ en :: l2) = some (en, l1 ++ l2) := by
  induction l1 with
  | nil =>
    intro en l2 _ hen
    simp [pop_non_frozen, hen]
  | cons x rest ih =>
    intro en l2 hall hen
    have hx : (ts x.task).frozen = true := hall x (by simp)
    have hrest : ∀ y ∈ rest, (ts y.task).frozen = true := by
      intro y hy; exact hall y (by simp [hy])
    have hrec := ih en l2 hrest hen
    simp only [List.cons_append, pop_non_frozen, hx, if_true]
    rw [show rest.append (en :: l2) = rest ++ en :: l2 from rfl, hrec]

theorem pop_non_frozen_none (ts : Nat → Task) (l : List Entry)
    (h : ∀ x ∈ l, (ts x.task).frozen = true) :
    pop_non_frozen ts l = none := by
  induction l with
  | nil => rfl
  | cons x rest ih =>
    have hx : (ts x.task).frozen = true := h x (by simp)
    have hrest : ∀ y ∈ rest, (ts y.task).frozen = true := by
      intro y hy; exact h y (by simp [hy])
    simp [pop_non_frozen, hx, ih hrest]

theorem pop_non_frozen_length (ts : Nat → Task) :
    ∀ (l : List Entry) (en : Entry) (rest : List Entry),
      pop_non_frozen ts l = some (en, rest) → l.length = rest.length + 1 := by
  intro l
  induction l with
  | nil => intro en rest h; exact Option.noConfusion h
  | cons x tl ih =>
    intro en rest h
    by_cases hx : (ts x.task).frozen
    · simp only [pop_non_frozen, hx, if_true] at h
      cases htl : pop_non_frozen ts tl with
      | none => rw [htl] at h; simp at h
      | some pr =>
        obtain ⟨en', rest'⟩ := pr
        rw [htl] at h
        simp only [Option.some.injEq, Prod.mk.injEq] at h
        obtain ⟨he, hr⟩ := h
        subst he; subst hr
        have hlen := ih en' rest' htl
        simp only [List.length_cons]
        omega
    · simp only [pop_non_frozen, hx, if_false, Option.some.injEq,
        Prod.mk.injEq] at h
      obtain ⟨rfl, rfl⟩ := h
      rfl

/-! Frame lemmas for `ngn_done_task_core` and the drain loop. -/

theorem core_ngns (s : ShedState) (k tid : Nat) (w c : Bool) :
    (ngn_done_task_core s k tid w c).ngns = s.ngns := by
  cases c <;> rfl

theorem core_aborted (s : ShedState) (k tid : Nat) (w c : Bool) :
    (ngn_done_task_core s k tid w c).aborted = s.aborted := by
  cases c <;> rfl

theorem core_nextNgnId (s : ShedState) (k tid : Nat) (w c : Bool) :
    (ngn_done_task_core s k tid w c).nextNgnId = s.nextNgnId := by
  cases c <;> rfl

theorem core_store (s : ShedState) (k tid : Nat) (w c : Bool) :
    (ngn_done_task_core s k tid w c).ngnStore =
      storeUpdate s.ngnStore k (fun e =>
        { e with no_finished := u32 (e.no_finished + 1),
                 no_live := if w then u32dec e.no_live else e.no_live,
                 no_assigned := u32dec e.no_assigned }) := by
  cases c <;> rfl

theorem core_closes (s : ShedState) (k tid : Nat) (w : Bool) :
    ((ngn_done_task_core s k tid w true).tasks tid).outputClosed = true := by
  simp [ngn_done_task_core, h2_task_output_close]

theorem core_closed_mono (s : ShedState) (k tid t : Nat) (w c : Bool)
    (h : (s.tasks t).outputClosed = true) :
    ((ngn_done_task_core s k tid w c).tasks t).outputClosed = true := by
  cases c
  · simpa [ngn_done_task_core] using h
  · by_cases ht : t = tid
    · subst ht
      exact core_closes s k t w
    · simpa [ngn_done_task_core, h2_task_output_close,
        setTaskState_tasks_other _ _ _ _ ht] using h

theorem drain_ngns (k : Nat) (l : List Entry) :
    ∀ s : ShedState, (drainEntries k l s).ngns = s.ngns := by
  induction l with
  | nil => intro s; rfl
  | cons en rest ih =>
    intro s
    rw [drainEntries, ih, core_ngns]

theorem drain_aborted (k : Nat) (l : List Entry) :
    ∀ s : ShedState, (drainEntries k l s).aborted = s.aborted := by
  induction l with
  | nil => intro s; rfl
  | cons en rest ih =>
    intro s
    rw [drainEntries, ih, core_aborted]

theorem drain_nextNgnId (k : Nat) (l : List Entry) :
    ∀ s : ShedState, (drainEntries k l s).nextNgnId = s.nextNgnId := by
  induction l with
  | nil => intro s; rfl
  | cons en rest ih =>
    intro s
    rw [drainEntries, ih, core_nextNgnId]

theorem drain_store_other (k : Nat) (l : List Entry) :
    ∀ (s : ShedState) (j : Nat), j ≠ k →
      ngnLookup (drainEntries k l s).ngnStore j = ngnLookup s.ngnStore j := by
  induction l with
  | nil => intro s j _; rfl
  | cons en rest ih =>
    intro s j hj
    rw [drainEntries, ih _ _ hj, core_store,
      ngnLookup_storeUpdate_other _ _ _ _ hj]

theorem drain_closed_mono (k : Nat) (l : List Entry) :
    ∀ (s : ShedState) (t : Nat), (s.tasks t).outputClosed = true →
      ((drainEntries k l s).tasks t).outputClosed = true := by
  induction l with
  | nil => intro s t h; exact h
  | cons en rest ih =>
    intro s t h
    rw [drainEntries]
    exact ih _ _ (core_closed_mono _ _ _ _ _ _ h)

theorem drain_closes (k : Nat) (l : List Entry) :
    ∀ (s : ShedState), ∀ en ∈ l,
      ((drainEntries k l s).tasks en.r.ctxTask).outputClosed = true := by
  induction l with
  | nil => intro s en h; exact absurd h (List.not_mem_nil en)
  | cons x rest ih =>
    intro s en h
    rw [drainEntries]
    rcases List.mem_cons.mp h with h1 | h2
    · subst h1
      exact drain_closed_mono _ _ _ _ (core_closes s k en.r.ctxTask false)
    · exact ih _ en h2

theorem drain_lookup (k : Nat) (l : List Entry) :
    ∀ (s : ShedState) (e : Engine), ngnLookup s.ngnStore k = some e →
      e.no_finished + l.length < u32mod →
      l.length ≤ e.no_assigned →
      e.no_assigned < u32mod →
      ngnLookup (drainEntries k l s).ngnStore k =
        some { e with no_finished := e.no_finished + l.length,
                      no_assigned := e.no_assigned - l.length } := by
  induction l with
  | nil =>
    intro s e he _ _ _
    simpa using he
  | cons en rest ih =>
    intro s e he hfin hasg hlt
    rw [drainEntries]
    have hfin1 : u32 (e.no_finished + 1) = e.no_finished + 1 := by
      apply u32_eq_of_lt
      have : rest.length + 1 = (en :: rest).length := rfl
      simp only [List.length_cons] at hfin
      omega
    have hasg1 : u32dec e.no_assigned = e.no_assigned - 1 := by
      apply u32dec_eq
      · simp only [List.length_cons] at hasg; omega
      · exact hlt
    have hlook : ngnLookup (ngn_done_task_core s k en.r.ctxTask false true).ngnStore k =
        some { e with no_finished := e.no_finished + 1,
                      no_live := e.no_live,
                      no_assigned := e.no_assigned - 1 } := by
      rw [core_store, ngnLookup_storeUpdate_self, he]
      simp [hfin1, hasg1]
    have hres := ih (ngn_done_task_core s k en.r.ctxTask false true)
      { e with no_finished := e.no_finished + 1, no_live := e.no_live,
               no_assigned := e.no_assigned - 1 }
      hlook
      (by simp only [List.length_cons] at hfin; simp; omega)
      (by simp only [List.length_cons] at hasg; simp; omega)
      (by simp; omega)
    rw [hres]
    simp only [List.length_cons] at hasg ⊢
    simp only [Option.some.injEq, Engine.mk.injEq, true_and, and_true]
    constructor <;> omega

theorem shedOk_create (cid : Int) (bs : Nat) (ts : Nat → Task) :
    ShedOk (h2_ngn_shed_create cid bs ts) := by
  intro ty k hget
  exact Option.noConfusion hget

theorem shedOk_updateEngine (s : ShedState) (k : Nat) (f : Engine → Engine)
    (hok : ShedOk s)
    (hf : ∀ e, ngnLookup s.ngnStore k = some e → EngineOk e →
          EngineOk (f e) ∧ (f e).type = e.type) :
    ShedOk (updateEngine s k f) := by
  intro ty' k' hget
  obtain ⟨hlt, e, hle, hty, heok⟩ := hok ty' k' hget
  refine ⟨hlt, ?_⟩
  by_cases hk : k' = k
  · subst hk
    obtain ⟨hf1, hf2⟩ := hf e hle heok
    refine ⟨f e, ?_, ?_, hf1⟩
    · rw [updateEngine_store, ngnLookup_storeUpdate_self, hle]; rfl
    · rw [hf2]; exact hty
  · refine ⟨e, ?_, hty, heok⟩
    rw [updateEngine_store, ngnLookup_storeUpdate_other _ _ _ _ hk]
    exact hle

theorem shedOk_setTaskState (s : ShedState) (tid : Nat) (f : Task → Task)
    (hok : ShedOk s) : ShedOk (setTaskState s tid f) :=
  hok

theorem some_pair_inj {α β : Type} {a c : α} {b d : β}
    (h : some (a, b) = some (c, d)) : a = c ∧ b = d := by
  obtain ⟨h1, h2⟩ := Prod.mk.injEq .. |>.mp (Option.some.inj h)
  exact ⟨h1, h2⟩

theorem some_triple_inj {α β γ : Type} {a d : α} {b e : β} {c f : γ}
    (h : some (a, b, c) = some (d, e, f)) : a = d ∧ b = e ∧ c = f := by
  obtain ⟨h1, h2⟩ := Prod.mk.injEq .. |>.mp (Option.some.inj h)
  obtain ⟨h3, h4⟩ := Prod.mk.injEq .. |>.mp h2
  exact ⟨h1, h3, h4⟩

theorem eok_newngn (s : ShedState) (ty : String) (tid : Nat) :
    EngineOk { id := "ngn-" ++ toString s.cId ++ "-" ++ toString s.nextNgnId,
               type := ty, taskOf := some tid, shutdown := false,
               entries := [], capacity := 100, no_assigned := 1, no_live := 1,
               no_finished := 0 } := by
  refine ⟨rfl, ?_, ?_⟩ <;> norm_num [u32mod]

theorem shedOk_push_create (s : ShedState) (ty : String) (tid : Nat)
    (r : RequestRec) (ei : Option EInit) (st : AprStatus) (s' : ShedState)
    (hok : ShedOk s) (h : push_create s ty tid r ei = (st, s')) : ShedOk s' := by
  cases ei with
  | none =>
    obtain ⟨_, rfl⟩ := Prod.mk.injEq .. |>.mp h
    exact hok
  | some f =>
    simp only [push_create] at h
    split at h
    · obtain ⟨_, rfl⟩ := Prod.mk.injEq .. |>.mp h
      intro ty' k' hget
      simp only [hashGet_hashSet, setTaskState_ngns] at hget
      by_cases hty : ty = ty'
      · rw [if_pos hty] at hget
        obtain rfl := Option.some.inj hget
        refine ⟨Nat.lt_succ_self _,
          { id := "ngn-" ++ toString s.cId ++ "-" ++ toString s.nextNgnId,
            type := ty, taskOf := some tid, shutdown := false, entries := [],
            capacity := 100, no_assigned := 1, no_live := 1, no_finished := 0 },
          ?_, hty, eok_newngn s ty tid⟩
        simp [ngnLookup]
      · rw [if_neg hty] at hget
        obtain ⟨hlt, e, hle, hty', heok⟩ := hok ty' k' hget
        refine ⟨Nat.lt_succ_of_lt hlt, e, ?_, hty', heok⟩
        have hne : s.nextNgnId ≠ k' := by omega
        simpa [ngnLookup, hne, setTaskState_store] using hle
    · obtain ⟨_, rfl⟩ := Prod.mk.injEq .. |>.mp h
      intro ty' k' hget
      obtain ⟨hlt, he⟩ := hok ty' k' hget
      exact ⟨Nat.lt_succ_of_lt hlt, he⟩

theorem shedOk_push (s : ShedState) (ty : String) (tid : Nat) (r : RequestRec)
    (ei : Option EInit) (st : AprStatus) (s' : ShedState)
    (hok : ShedOk s) (h : h2_ngn_shed_push_req s ty tid r ei = some (st, s')) :
    ShedOk s' := by
  rw [h2_ngn_shed_push_req] at h
  split at h
  · obtain ⟨_, rfl⟩ := some_pair_inj h
    exact hok
  · split at h
    · exact shedOk_push_create s ty tid r ei st s' hok (Option.some.inj h)
    · rename_i k hh
      split at h
      · exact Option.noConfusion h
      · rename_i ngn hl
        split at h
        · exact shedOk_push_create s ty tid r ei st s' hok (Option.some.inj h)
        · split at h
          · exact shedOk_push_create s ty tid r ei st s' hok (Option.some.inj h)
          · rename_i hsd hcap
            obtain ⟨_, rfl⟩ := some_pair_inj h
            apply shedOk_updateEngine _ _ _ (shedOk_setTaskState _ _ _ hok)
            intro e hle heok
            have hle' : ngnLookup s.ngnStore k = some e := hle
            obtain rfl : e = ngn := Option.some.inj (hle'.symm.trans hl)
            obtain ⟨hacct, hasg, hcaplt⟩ := heok
            have hinc : u32 (e.no_assigned + 1) = e.no_assigned + 1 :=
              u32_eq_of_lt (by omega)
            refine ⟨⟨?_, ?_, hcaplt⟩, rfl⟩
            · show u32 (e.no_assigned + 1) =
                (e.entries ++ [({ task := tid, r := r } : Entry)]).length + e.no_live
              rw [hinc, List.length_append]
              simp only [List.length_cons, List.length_nil]
              omega
            · show u32 (e.no_assigned + 1) < u32mod
              rw [hinc]; omega

theorem shedOk_pull (s : ShedState) (k cap : Nat) (w : Bool) (st : AprStatus)
    (pr : Option RequestRec) (s' : ShedState) (hok : ShedOk s)
    (h : h2_ngn_shed_pull_req s k cap w = some (st, pr, s')) : ShedOk s' := by
  rw [h2_ngn_shed_pull_req] at h
  split at h
  · exact Option.noConfusion h
  · rename_i ngn0 hl
    split at h
    · obtain ⟨_, _, rfl⟩ := some_triple_inj h
      apply shedOk_updateEngine _ _ _ hok
      intro e hle heok
      obtain rfl : e = ngn0 := Option.some.inj (hle.symm.trans hl)
      exact ⟨heok, rfl⟩
    · split at h
      · obtain ⟨_, _, rfl⟩ := some_triple_inj h
        apply shedOk_updateEngine _ _ _ hok
        intro e hle heok
        obtain rfl : e = ngn0 := Option.some.inj (hle.symm.trans hl)
        obtain ⟨hacct, hasg, _⟩ := heok
        exact ⟨⟨hacct, hasg, u32_lt cap⟩, rfl⟩
      · split at h
        · rename_i entry rest hp
          obtain ⟨_, _, rfl⟩ := some_triple_inj h
          apply shedOk_updateEngine _ _ _ hok
          intro e hle heok
          obtain rfl : e = ngn0 := Option.some.inj (hle.symm.trans hl)
          obtain ⟨hacct, hasg, _⟩ := heok
          have hlen : e.entries.length = rest.length + 1 :=
            pop_non_frozen_length s.tasks e.entries entry rest hp
          have hlive : u32 (e.no_live + 1) = e.no_live + 1 :=
            u32_eq_of_lt (by omega)
          refine ⟨⟨?_, hasg, u32_lt cap⟩, rfl⟩
          show e.no_assigned = rest.length + u32 (e.no_live + 1)
          rw [hlive]
          omega
        · obtain ⟨_, _, rfl⟩ := some_triple_inj h
          apply shedOk_updateEngine _ _ _ hok
          intro e hle heok
          obtain rfl : e = ngn0 := Option.some.inj (hle.symm.trans hl)
          obtain ⟨hacct, hasg, _⟩ := heok
          exact ⟨⟨hacct, hasg, u32_lt cap⟩, rfl⟩

theorem shedOk_done_task (s : ShedState) (k tid : Nat) (st : AprStatus)
    (s' : ShedState) (hok : ShedOk s)
    (hlive : ∀ ngn, ngnLookup s.ngnStore k = some ngn → 0 < ngn.no_live)
    (h : h2_ngn_shed_done_task s k tid = some (st, s')) : ShedOk s' := by
  rw [h2_ngn_shed_done_task] at h
  split at h
  · exact Option.noConfusion h
  · rename_i ngn hl
    obtain ⟨_, rfl⟩ := some_pair_inj h
    apply shedOk_updateEngine _ _ _ hok
    intro e hle heok
    obtain rfl : e = ngn := Option.some.inj (hle.symm.trans hl)
    obtain ⟨hacct, hasg, hcaplt⟩ := heok
    have hl0 : 0 < e.no_live := hlive e hle
    have hdl : u32dec e.no_live = e.no_live - 1 := u32dec_eq hl0 (by omega)
    have hda : u32dec e.no_assigned = e.no_assigned - 1 :=
      u32dec_eq (by omega) hasg
    refine ⟨⟨?_, ?_, hcaplt⟩, rfl⟩
    · show u32dec e.no_assigned = e.entries.length + (if true then u32dec e.no_live else e.no_live)
      rw [if_pos rfl, hdl, hda]
      omega
    · show u32dec e.no_assigned < u32mod
      rw [hda]; omega

theorem shedOk_done_ngn (s : ShedState) (k : Nat) (s' : ShedState)
    (hok : ShedOk s) (h : h2_ngn_shed_done_ngn s k = some s') : ShedOk s' := by
  rw [h2_ngn_shed_done_ngn] at h
  split at h
  · exact Option.noConfusion h
  · rename_i ngn hl
    obtain rfl := Option.some.inj h
    set s1 := if s.aborted = false ∧ ngn.entries ≠ [] then
        drainEntries k ngn.entries s else s with hs1
    have hngns : s1.ngns = s.ngns := by
      rw [hs1]; split
      · exact drain_ngns k ngn.entries s
      · rfl
    have hnid : s1.nextNgnId = s.nextNgnId := by
      rw [hs1]; split
      · exact drain_nextNgnId k ngn.entries s
      · rfl
    have hother : ∀ j, j ≠ k →
        ngnLookup s1.ngnStore j = ngnLookup s.ngnStore j := by
      intro j hj
      rw [hs1]; split
      · exact drain_store_other k ngn.entries s j hj
      · rfl
    have hcoh : ∀ ty' k', hashGet s.ngns ty' = some k' → k' = k →
        ty' = ngn.type := by
      intro ty' k' hget hk
      subst hk
      obtain ⟨_, e, hle, hty, _⟩ := hok ty' k' hget
      obtain rfl : e = ngn := Option.some.inj (hle.symm.trans hl)
      exact hty.symm
    rw [doneNgnRegistry]
    split
    · rename_i kx hg
      rw [hngns] at hg
      split
      · rename_i hkx
        intro ty' k' hget
        simp only [hashGet_hashDel, hngns] at hget
        split at hget
        · exact Option.noConfusion hget
        · rename_i hty
          obtain ⟨hlt, e, hle, hty', heok⟩ := hok ty' k' hget
          have hk' : k' ≠ k := fun hkk => hty (hcoh ty' k' hget hkk)
          refine ⟨by rw [hnid]; exact hlt, e, ?_, hty', heok⟩
          rw [hother k' hk']
          exact hle
      · rename_i hkx
        intro ty' k' hget
        rw [hngns] at hget
        obtain ⟨hlt, e, hle, hty', heok⟩ := hok ty' k' hget
        have hk' : k' ≠ k := by
          intro hkk
          rw [hcoh ty' k' hget hkk] at hget
          rw [hget] at hg
          exact hkx ((Option.some.inj hg).symm ▸ hkk)
        refine ⟨by rw [hnid]; exact hlt, e, ?_, hty', heok⟩
        rw [hother k' hk']
        exact hle
    · rename_i hg
      rw [hngns] at hg
      intro ty' k' hget
      rw [hngns] at hget
      obtain ⟨hlt, e, hle, hty', heok⟩ := hok ty' k' hget
      have hk' : k' ≠ k := by
        intro hkk
        rw [hcoh ty' k' hget hkk] at hget
        rw [hget] at hg
        exact Option.noConfusion hg
      refine ⟨by rw [hnid]; exact hlt, e, ?_, hty', heok⟩
      rw [hother k' hk']
      exact hle

/-! Characterizations of the push fall-through and engine-creation paths. -/

theorem push_fallthrough (s : ShedState) (ty : String) (tid : Nat)
    (r : RequestRec) (ei : Option EInit)
    (hser : (s.tasks tid).ser_headers = false) (hnc : noCapacity s ty) :
    h2_ngn_shed_push_req s ty tid r ei = some (push_create s ty tid r ei) := by
  simp only [h2_ngn_shed_push_req, hser, Bool.false_eq_true, if_false]
  cases hh : hashGet s.ngns ty with
  | none => simp [hh]
  | some k =>
    obtain ⟨ngn, hl, hcase⟩ := hnc k hh
    by_cases hsd : ngn.shutdown = true
    · simp [hh, hl, hsd]
    · rcases hcase with hsd' | hcap
      · exact absurd hsd' hsd
      · simp [hh, hl, hsd, hcap]

theorem push_create_success_eq (s : ShedState) (ty : String) (tid : Nat)
    (r : RequestRec) (f : EInit)
    (hsucc : f ("ngn-" ++ toString s.cId ++ "-" ++ toString s.nextNgnId) ty
      s.reqBufferSize r = .success) :
    push_create s ty tid r (some f) =
      (.success,
        { setTaskState { s with nextNgnId := s.nextNgnId + 1 } tid
            (fun t => { t with engine := some s.nextNgnId }) with
          ngnStore := (s.nextNgnId, newEngine s ty tid) :: s.ngnStore,
          ngns := hashSet s.ngns ty s.nextNgnId }) := by
  simp only [push_create, hsucc]
  rfl

theorem push_create_failure_eq (s : ShedState) (ty : String) (tid : Nat)
    (r : RequestRec) (f : EInit) (st : AprStatus)
    (hst : f ("ngn-" ++ toString s.cId ++ "-" ++ toString s.nextNgnId) ty
      s.reqBufferSize r = st)
    (hne : st ≠ .success) :
    push_create s ty tid r (some f) =
      (st, { s with nextNgnId := s.nextNgnId + 1 }) := by
  simp only [push_create, hst]
  rw [if_neg hne]

/-! Behaviour of pull on an aborted shed. -/

theorem pull_on_aborted (s : ShedState) (k : Nat) (ngn : Engine)
    (cap : Nat) (w : Bool)
    (hl : ngnLookup s.ngnStore k = some ngn) (ha : s.aborted = true) :
    h2_ngn_shed_pull_req s k cap w =
      some (.econnaborted, none,
        updateEngine s k (fun _ => { ngn with shutdown := true })) := by
  simp [h2_ngn_shed_pull_req, hl, ha]

/-! Behaviour of the registry tail of done_ngn. -/

theorem doneNgnRegistry_store (s : ShedState) (ty : String) (k : Nat) :
    (doneNgnRegistry s ty k).ngnStore = s.ngnStore := by
  rw [doneNgnRegistry]
  split
  · split <;> rfl
  · rfl

theorem doneNgnRegistry_tasks (s : ShedState) (ty : String) (k : Nat) :
    (doneNgnRegistry s ty k).tasks = s.tasks := by
  rw [doneNgnRegistry]
  split
  · split <;> rfl
  · rfl

theorem doneNgnRegistry_aborted (s : ShedState) (ty : String) (k : Nat) :
    (doneNgnRegistry s ty k).aborted = s.aborted := by
  rw [doneNgnRegistry]
  split
  · split <;> rfl
  · rfl

theorem doneNgnRegistry_ngns_del (s : ShedState) (ty : String) (k : Nat)
    (h : hashGet s.ngns ty = some k) :
    (doneNgnRegistry s ty k).ngns = hashDel s.ngns ty := by
  simp [doneNgnRegistry, h]

theorem doneNgnRegistry_ngns_keep (s : ShedState) (ty : String) (k k' : Nat)
    (h : hashGet s.ngns ty = some k') (hk : k' ≠ k) :
    (doneNgnRegistry s ty k).ngns = s.ngns := by
  simp [doneNgnRegistry, h, hk]

theorem doneNgnRegistry_ngns_none (s : ShedState) (ty : String) (k : Nat)
    (h : hashGet s.ngns ty = none) :
    (doneNgnRegistry s ty k).ngns = s.ngns := by
  simp [doneNgnRegistry, h]

/-! No operation ever clears the abort flag. -/

theorem push_create_keeps_aborted (s : ShedState) (ty : String) (tid : Nat)
    (r : RequestRec) (ei : Option EInit) (st : AprStatus) (s' : ShedState)
    (h : push_create s ty tid r ei = (st, s')) : s'.aborted = s.aborted := by
  cases ei with
  | none =>
    obtain ⟨_, rfl⟩ := Prod.mk.injEq .. |>.mp h
    rfl
  | some f =>
    simp only [push_create] at h
    split at h <;>
      (obtain ⟨_, rfl⟩ := Prod.mk.injEq .. |>.mp h; rfl)

theorem push_keeps_aborted (s : ShedState) (ty : String) (tid : Nat)
    (r : RequestRec) (ei : Option EInit) (st : AprStatus) (s' : ShedState)
    (h : h2_ngn_shed_push_req s ty tid r ei = some (st, s')) :
    s'.aborted = s.aborted := by
  rw [h2_ngn_shed_push_req] at h
  split at h
  · obtain ⟨_, rfl⟩ := some_pair_inj h
    rfl
  · split at h
    · exact push_create_keeps_aborted s ty tid r ei st s' (Option.some.inj h)
    · split at h
      · exact Option.noConfusion h
      · split at h
        · exact push_create_keeps_aborted s ty tid r ei st s' (Option.some.inj h)
        · split at h
          · exact push_create_keeps_aborted s ty tid r ei st s'
              (Option.some.inj h)
          · obtain ⟨_, rfl⟩ := some_pair_inj h
            rfl

theorem pull_keeps_aborted (s : ShedState) (k cap : Nat) (w : Bool)
    (st : AprStatus) (pr : Option RequestRec) (s' : ShedState)
    (h : h2_ngn_shed_pull_req s k cap w = some (st, pr, s')) :
    s'.aborted = s.aborted := by
  rw [h2_ngn_shed_pull_req] at h
  split at h
  · exact Option.noConfusion h
  · split at h
    · obtain ⟨_, _, rfl⟩ := some_triple_inj h
      rfl
    · split at h
      · obtain ⟨_, _, rfl⟩ := some_triple_inj h
        rfl
      · split at h
        · obtain ⟨_, _, rfl⟩ := some_triple_inj h
          rfl
        · obtain ⟨_, _, rfl⟩ := some_triple_inj h
          rfl

theorem done_task_keeps_aborted (s : ShedState) (k tid : Nat) (st : AprStatus)
    (s' : ShedState) (h : h2_ngn_shed_done_task s k tid = some (st, s')) :
    s'.aborted = s.aborted := by
  rw [h2_ngn_shed_done_task] at h
  split at h
  · exact Option.noConfusion h
  · obtain ⟨_, rfl⟩ := some_pair_inj h
    exact core_aborted s k tid true false

theorem done_ngn_keeps_aborted (s : ShedState) (k : Nat) (s' : ShedState)
    (h : h2_ngn_shed_done_ngn s k = some s') : s'.aborted = s.aborted := by
  rw [h2_ngn_shed_done_ngn] at h
  split at h
  · exact Option.noConfusion h
  · rename_i ngn hl
    obtain rfl := Option.some.inj h
    rw [doneNgnRegistry_aborted]
    split
    · exact drain_aborted k ngn.entries s
    · rfl

theorem step_keeps_aborted {s s' : ShedState} (h : ShedStep s s')
    (ha : s.aborted = true) : s'.aborted = true := by
  cases h with
  | push s0 ty tid r ei st heq =>
    rw [push_keeps_aborted _ _ _ _ _ _ _ heq]; exact ha
  | pull s0 k cap w st pr heq =>
    rw [pull_keeps_aborted _ _ _ _ _ _ _ heq]; exact ha
  | doneTask s0 k tid st heq =>
    rw [done_task_keeps_aborted _ _ _ _ _ heq]; exact ha
  | doneNgn s0 k heq =>
    rw [done_ngn_keeps_aborted _ _ _ heq]; exact ha
  | abort => rfl
  | env ts => exact ha

theorem reach_keeps_aborted {s s' : ShedState}
    (h : Relation.ReflTransGen ShedStep s s') (ha : s.aborted = true) :
    s'.aborted = true := by
  induction h with
  | refl => exact ha
  | tail hab hbc ih => exact step_keeps_aborted hbc ih

/-! Auxiliary facts about the concrete fixtures. -/

theorem shedOk_shedA : ShedOk shedA := by
  intro ty k hget
  simp only [shedA, hashGet] at hget
  split at hget
  · rename_i hty
    obtain rfl := Option.some.inj hget
    exact ⟨by decide, engA, rfl, hty, by decide⟩
  · exact Option.noConfusion hget

theorem nocap_shed0 : noCapacity shed0 "cgi" :=
  fun _ h => Option.noConfusion h

/-! The claims. -/

/-- C1 (amended): for every engine registered in the Shed's type map, the
accounting equation `no_assigned` = (entries currently queued) + `no_live`
holds at shed creation and is preserved by every completed push, pull,
done_task (reporting a previously-live request, `0 < no_live`) and
done_engine operation; a new engine starts with `assigned = 1`, `live = 1`
and an empty queue, so it satisfies the equation at creation.  (As stated
the claim fails for the exited engine itself after done_engine with a
non-empty queue, because the drain loop decrements `no_assigned` without
removing the entries from the ring — see the counterexample.) -/
theorem C1_invariant_preserved :
    (∀ cid bs ts, ShedOk (h2_ngn_shed_create cid bs ts)) ∧
    (∀ s ty tid r ei st s', ShedOk s →
      h2_ngn_shed_push_req s ty tid r ei = some (st, s') → ShedOk s') ∧
    (∀ s k cap w st pr s', ShedOk s →
      h2_ngn_shed_pull_req s k cap w = some (st, pr, s') → ShedOk s') ∧
    (∀ s k tid st s', ShedOk s →
      (∀ ngn, ngnLookup s.ngnStore k = some ngn → 0 < ngn.no_live) →
      h2_ngn_shed_done_task s k tid = some (st, s') → ShedOk s') ∧
    (∀ s k s', ShedOk s → h2_ngn_shed_done_ngn s k = some s' → ShedOk s') ∧
    (∀ s ty k e, ShedOk s → hashGet s.ngns ty = some k →
      ngnLookup s.ngnStore k = some e →
      e.no_assigned = e.entries.length + e.no_live) := by
  refine ⟨shedOk_create,
    fun s ty tid r ei st s' hok h => shedOk_push s ty tid r ei st s' hok h,
    fun s k cap w st pr s' hok h => shedOk_pull s k cap w st pr s' hok h,
    fun s k tid st s' hok hlive h => shedOk_done_task s k tid st s' hok hlive h,
    fun s k s' hok h => shedOk_done_ngn s k s' hok h,
    fun s ty k e hok hg hl => ?_⟩
  obtain ⟨_, e', hl', _, hacct, _⟩ := hok ty k hg
  obtain rfl : e = e' := Option.some.inj (hl.symm.trans hl')
  exact hacct

/-- C1 witness: the amended invariant applied to a concrete pull on `shedA`
(a shed satisfying the invariant), yielding the invariant for the
post-pull state. -/
theorem C1_witness : ShedOk shedApulled :=
  C1_invariant_preserved.2.2.1 shedA 0 10 false .success (some r1) shedApulled
    shedOk_shedA rfl

/-- C1 counterexample: a complete run from shed creation — create the shed,
create an engine by pushing task 0, queue task 1, then let the engine
worker exit (`done_engine`).  Afterwards the engine record left in the
store still holds the queued entry for task 1 while `no_assigned` has been
reconciled down to 1, so `no_assigned = queue-length + no_live` fails
(1 is not 1 + 1) for that engine after a completed done_engine. -/
theorem C1_cex :
    h2_ngn_shed_push_req shed0 "cgi" 0 r0 (some einitOk) =
      some (.success, shed1) ∧
    h2_ngn_shed_push_req shed1 "cgi" 1 r1 none = some (.success, shed2) ∧
    h2_ngn_shed_done_ngn shed2 0 = some shed2done ∧
    ngnLookup shed2done.ngnStore 0 = some shed2doneEngine ∧
    shed2doneEngine.no_assigned ≠
      shed2doneEngine.entries.length + shed2doneEngine.no_live :=
  ⟨rfl, rfl, rfl, rfl, by decide⟩

/-- C2: on a non-aborted shed, pull returns the first entry of the pending
queue whose task is not frozen, removes exactly that entry (the skipped
frozen prefix and the suffix keep their order), bumps `no_live` by one and
returns the entry's request with success; if every queued entry's task is
frozen, pull returns try-again and the queue is unchanged. -/
theorem C2_pull_fifo :
    ∀ (s : ShedState) (k : Nat) (ngn : Engine) (cap : Nat) (w : Bool),
      ngnLookup s.ngnStore k = some ngn → s.aborted = false →
      ((∀ l1 en l2, ngn.entries = l1 ++ en :: l2 →
        (∀ x ∈ l1, (s.tasks x.task).frozen = true) →
        (s.tasks en.task).frozen = false →
        ngn.no_live + 1 < u32mod →
        h2_ngn_shed_pull_req s k cap w =
          some (.success, some en.r,
            updateEngine s k (fun _ =>
              { ngn with capacity := u32 cap, entries := l1 ++ l2,
                         no_live := ngn.no_live + 1 }))) ∧
      ((∀ x ∈ ngn.entries, (s.tasks x.task).frozen = true) →
        ngn.entries ≠ [] →
        h2_ngn_shed_pull_req s k cap w =
          some (.eagain, none,
            updateEngine s k (fun _ => { ngn with capacity := u32 cap })))) := by
  intro s k ngn cap w hl hab
  constructor
  · intro l1 en l2 hsplit hfroz hen hlt
    have hpop : pop_non_frozen s.tasks ngn.entries = some (en, l1 ++ l2) := by
      rw [hsplit]
      exact pop_non_frozen_of_split s.tasks l1 en l2 hfroz hen
    have hne : ngn.entries.isEmpty = false := by
      rw [hsplit]; cases l1 <;> rfl
    simp only [h2_ngn_shed_pull_req, hl, hab, Bool.false_eq_true, if_false,
      hne, hpop, u32_eq_of_lt hlt]
  · intro hall hne0
    have hpop := pop_non_frozen_none s.tasks ngn.entries hall
    have hne : ngn.entries.isEmpty = false := by
      cases hE : ngn.entries with
      | nil => exact absurd hE hne0
      | cons a tl => rfl
    simp only [h2_ngn_shed_pull_req, hl, hab, Bool.false_eq_true, if_false,
      hne, hpop]

/-- C2 witness: pulling from `shedA` skips the frozen head entry (task 5),
returns the request of task 1, leaves the frozen entry in place, and bumps
`no_live` from 1 to 2. -/
theorem C2_witness :
    h2_ngn_shed_pull_req shedA 0 10 false =
      some (.success, some r1,
        updateEngine shedA 0 (fun _ =>
          { engA with capacity := u32 10,
                      entries := [{ task := 5, r := r5 }],
                      no_live := 2 })) :=
  (C2_pull_fifo shedA 0 engA 10 false rfl rfl).1
    [{ task := 5, r := r5 }] { task := 1, r := r1 } [] rfl
    (by decide) (by decide) (by decide)

/-- C3: when push cannot route to a registered engine (none registered, or
the registered one is shut down or at capacity) and an initializer is
supplied, a new engine with id "ngn-(connection id)-(sequence)", capacity
100, `assigned = 1`, `live = 1` and an empty queue is allocated and the
per-shed sequence advances by one; if the initializer returns success the
engine is registered under the type name (becoming the engine any later
lookup of that type finds), linked to the originating task, and push
returns success; if the initializer fails, push returns the initializer's
status and nothing but the sequence changes (the engine is not
registered). -/
theorem C3_engine_creation :
    ∀ (s : ShedState) (ty : String) (tid : Nat) (r : RequestRec) (f : EInit),
      (s.tasks tid).ser_headers = false →
      noCapacity s ty →
      ((f ("ngn-" ++ toString s.cId ++ "-" ++ toString s.nextNgnId) ty
          s.reqBufferSize r = .success →
        ∃ s', h2_ngn_shed_push_req s ty tid r (some f) =
            some (.success, s') ∧
          s'.nextNgnId = s.nextNgnId + 1 ∧
          hashGet s'.ngns ty = some s.nextNgnId ∧
          ngnLookup s'.ngnStore s.nextNgnId = some (newEngine s ty tid) ∧
          (newEngine s ty tid).id =
            "ngn-" ++ toString s.cId ++ "-" ++ toString s.nextNgnId ∧
          (newEngine s ty tid).capacity = 100 ∧
          (newEngine s ty tid).no_assigned = 1 ∧
          (newEngine s ty tid).no_live = 1 ∧
          (newEngine s ty tid).entries = [] ∧
          (newEngine s ty tid).taskOf = some tid ∧
          (s'.tasks tid).engine = some s.nextNgnId) ∧
       (∀ st, f ("ngn-" ++ toString s.cId ++ "-" ++ toString s.nextNgnId) ty
          s.reqBufferSize r = st → st ≠ .success →
        h2_ngn_shed_push_req s ty tid r (some f) =
          some (st, { s with nextNgnId := s.nextNgnId + 1 }))) := by
  intro s ty tid r f hser hnc
  constructor
  · intro hsucc
    refine ⟨{ setTaskState { s with nextNgnId := s.nextNgnId + 1 } tid
          (fun t => { t with engine := some s.nextNgnId }) with
        ngnStore := (s.nextNgnId, newEngine s ty tid) :: s.ngnStore,
        ngns := hashSet s.ngns ty s.nextNgnId },
      ?_, rfl, ?_, ?_, rfl, rfl, rfl, rfl, rfl, rfl, ?_⟩
    · rw [push_fallthrough s ty tid r (some f) hser hnc,
        push_create_success_eq s ty tid r f hsucc]
    · simp [hashGet_hashSet]
    · simp [ngnLookup]
    · simp [setTaskState]
  · intro st hst hne
    rw [push_fallthrough s ty tid r (some f) hser hnc,
      push_create_failure_eq s ty tid r f st hst hne]

/-- C3 witness: pushing task 0 into the fresh `shed0` with an always-
succeeding initializer creates and registers engine 0 of type "cgi". -/
theorem C3_witness :
    ∃ s', h2_ngn_shed_push_req shed0 "cgi" 0 r0 (some einitOk) =
        some (.success, s') ∧
      s'.nextNgnId = shed0.nextNgnId + 1 ∧
      hashGet s'.ngns "cgi" = some shed0.nextNgnId ∧
      ngnLookup s'.ngnStore shed0.nextNgnId =
        some (newEngine shed0 "cgi" 0) ∧
      (newEngine shed0 "cgi" 0).id =
        "ngn-" ++ toString shed0.cId ++ "-" ++ toString shed0.nextNgnId ∧
      (newEngine shed0 "cgi" 0).capacity = 100 ∧
      (newEngine shed0 "cgi" 0).no_assigned = 1 ∧
      (newEngine shed0 "cgi" 0).no_live = 1 ∧
      (newEngine shed0 "cgi" 0).entries = [] ∧
      (newEngine shed0 "cgi" 0).taskOf = some 0 ∧
      (s'.tasks 0).engine = some shed0.nextNgnId :=
  (C3_engine_creation shed0 "cgi" 0 r0 einitOk rfl nocap_shed0).1 rfl

/-- C4: abort sets the sticky flag; in every state reachable from an
aborted shed by any sequence of operations the flag is still set, and
every pull on any engine of such a state fails with the aborted condition,
returns no request, and leaves that engine shut down. -/
theorem C4_abort_sticky :
    ∀ (s s' : ShedState),
      Relation.ReflTransGen ShedStep (h2_ngn_shed_abort s) s' →
      s'.aborted = true ∧
      ∀ (k : Nat) (ngn : Engine) (cap : Nat) (w : Bool),
        ngnLookup s'.ngnStore k = some ngn →
        h2_ngn_shed_pull_req s' k cap w =
          some (.econnaborted, none,
            updateEngine s' k (fun _ => { ngn with shutdown := true })) ∧
        ngnLookup (updateEngine s' k
            (fun _ => { ngn with shutdown := true })).ngnStore k =
          some { ngn with shutdown := true } := by
  intro s s' hreach
  have ha : s'.aborted = true := reach_keeps_aborted hreach rfl
  refine ⟨ha, ?_⟩
  intro k ngn cap w hl
  refine ⟨pull_on_aborted s' k ngn cap w hl ha, ?_⟩
  rw [updateEngine_store, ngnLookup_storeUpdate_self, hl]
  rfl

/-- C4 witness: pulling immediately after aborting `shedA` yields the
aborted condition and shuts engine 0 down. -/
theorem C4_witness :
    h2_ngn_shed_pull_req (h2_ngn_shed_abort shedA) 0 5 true =
      some (.econnaborted, none,
        updateEngine (h2_ngn_shed_abort shedA) 0
          (fun _ => { engA with shutdown := true })) :=
  ((C4_abort_sticky shedA (h2_ngn_shed_abort shedA)
      Relation.ReflTransGen.refl).2 0 engA 5 true rfl).1

/-- C5: done_engine on a non-aborted shed with N queued entries produces
exactly N finish events — `no_finished` grows by N, `no_assigned` shrinks
by N, `no_live` is untouched, and the output of each queued entry's
request is closed — and removes the engine from the type registry exactly
when it is still the engine registered under its type. -/
theorem C5_done_engine :
    ∀ (s : ShedState) (k : Nat) (ngn : Engine) (s' : ShedState),
      ngnLookup s.ngnStore k = some ngn →
      s.aborted = false →
      ngn.no_finished + ngn.entries.length < u32mod →
      ngn.entries.length ≤ ngn.no_assigned →
      ngn.no_assigned < u32mod →
      h2_ngn_shed_done_ngn s k = some s' →
      ngnLookup s'.ngnStore k =
        some { ngn with
               no_finished := ngn.no_finished + ngn.entries.length,
               no_assigned := ngn.no_assigned - ngn.entries.length } ∧
      (∀ en ∈ ngn.entries, (s'.tasks en.r.ctxTask).outputClosed = true) ∧
      (hashGet s.ngns ngn.type = some k → hashGet s'.ngns ngn.type = none) ∧
      (∀ k', hashGet s.ngns ngn.type = some k' → k' ≠ k →
        s'.ngns = s.ngns) ∧
      (hashGet s.ngns ngn.type = none → s'.ngns = s.ngns) := by
  intro s k ngn s' hl hab hfin hasg hlt h
  rw [h2_ngn_shed_done_ngn, hl] at h
  obtain rfl := Option.some.inj h
  by_cases hE : ngn.entries = []
  · have hcond : ¬ (s.aborted = false ∧ ngn.entries ≠ []) := fun hc => hc.2 hE
    rw [if_neg hcond]
    refine ⟨?_, ?_, ?_, ?_, ?_⟩
    · rw [doneNgnRegistry_store, hl, hE]
      simp only [Option.some.injEq, List.length_nil, Nat.add_zero,
        Nat.sub_zero]
      exact Engine.ext rfl rfl rfl rfl hE rfl rfl rfl rfl
    · intro en hen
      rw [hE] at hen
      exact absurd hen (List.not_mem_nil en)
    · intro hg
      rw [doneNgnRegistry_ngns_del s ngn.type k hg, hashGet_hashDel]
      simp
    · intro k' hg hk
      exact doneNgnRegistry_ngns_keep s ngn.type k k' hg hk
    · intro hg
      exact doneNgnRegistry_ngns_none s ngn.type k hg
  · have hcond : s.aborted = false ∧ ngn.entries ≠ [] := ⟨hab, hE⟩
    rw [if_pos hcond]
    have hdl := drain_lookup k ngn.entries s ngn hl hfin hasg hlt
    have hdngns := drain_ngns k ngn.entries s
    refine ⟨?_, ?_, ?_, ?_, ?_⟩
    · rw [doneNgnRegistry_store]
      exact hdl
    · intro en hen
      rw [doneNgnRegistry_tasks]
      exact drain_closes k ngn.entries s en hen
    · intro hg
      rw [doneNgnRegistry_ngns_del _ ngn.type k (by rw [hdngns]; exact hg),
        hashGet_hashDel, hdngns]
      simp
    · intro k' hg hk
      rw [doneNgnRegistry_ngns_keep _ ngn.type k k'
        (by rw [hdngns]; exact hg) hk]
      exact hdngns
    · intro hg
      rw [doneNgnRegistry_ngns_none _ ngn.type k (by rw [hdngns]; exact hg)]
      exact hdngns

/-- C5 witness: the worker of `shedA`'s engine exits with two entries
queued: `no_finished` grows by 2, `no_assigned` shrinks by 2, and the
output of queued task 1 is closed. -/
theorem C5_witness :
    ngnLookup shedAdone.ngnStore 0 =
      some { engA with
             no_finished := engA.no_finished + engA.entries.length,
             no_assigned := engA.no_assigned - engA.entries.length } ∧
    (shedAdone.tasks 1).outputClosed = true :=
  ⟨(C5_done_engine shedA 0 engA shedAdone rfl rfl (by decide) (by decide)
      (by decide) rfl).1,
   (C5_done_engine shedA 0 engA shedAdone rfl rfl (by decide) (by decide)
      (by decide) rfl).2.1 { task := 1, r := r1 } (by decide)⟩

/-- C6: when the engine registered under the requested type is not in
shutdown and `no_assigned` is strictly below its capacity, push freezes
the request's task, appends the (task, request) entry at the tail of that
engine's pending queue, bumps `no_assigned` by one and returns success;
the type map, the id sequence and every other engine are untouched, so no
new engine is created. -/
theorem C6_push_accept :
    ∀ (s : ShedState) (ty : String) (tid : Nat) (r : RequestRec)
      (ei : Option EInit) (k : Nat) (ngn : Engine),
      (s.tasks tid).ser_headers = false →
      hashGet s.ngns ty = some k →
      ngnLookup s.ngnStore k = some ngn →
      ngn.shutdown = false →
      ngn.no_assigned < ngn.capacity →
      ngn.capacity < u32mod →
      ∃ s', h2_ngn_shed_push_req s ty tid r ei = some (.success, s') ∧
        ngnLookup s'.ngnStore k =
          some { ngn with
                 entries := ngn.entries ++ [{ task := tid, r := r }],
                 no_assigned := ngn.no_assigned + 1 } ∧
        (s'.tasks tid).frozen = true ∧
        s'.ngns = s.ngns ∧
        s'.nextNgnId = s.nextNgnId ∧
        (∀ j, j ≠ k → ngnLookup s'.ngnStore j = ngnLookup s.ngnStore j) := by
  intro s ty tid r ei k ngn hser hh hl hsd hcap hcaplt
  have hncap : ¬ ngn.capacity ≤ ngn.no_assigned := by omega
  refine ⟨updateEngine (h2_task_freeze s tid) k (fun e =>
      { e with entries := e.entries ++ [{ task := tid, r := r }],
               no_assigned := u32 (e.no_assigned + 1) }),
    ?_, ?_, ?_, rfl, rfl, ?_⟩
  · simp only [h2_ngn_shed_push_req, hser, Bool.false_eq_true, if_false,
      hh, hl, hsd, hncap]
  · rw [updateEngine_store, ngnLookup_storeUpdate_self]
    have hlf : ngnLookup (h2_task_freeze s tid).ngnStore k = some ngn := hl
    rw [hlf]
    have hinc : u32 (ngn.no_assigned + 1) = ngn.no_assigned + 1 :=
      u32_eq_of_lt (by omega)
    show some ({ ngn with
        entries := ngn.entries ++ [{ task := tid, r := r }],
        no_assigned := u32 (ngn.no_assigned + 1) } : Engine) = _
    rw [hinc]
  · rw [updateEngine_tasks]
    simp [h2_task_freeze]
  · intro j hj
    rw [updateEngine_store, ngnLookup_storeUpdate_other _ _ _ _ hj]
    rfl

/-- C6 witness: pushing task 2 into `shedA` queues it behind the two
existing entries and raises `no_assigned` from 3 to 4. -/
theorem C6_witness :
    ∃ s', h2_ngn_shed_push_req shedA "cgi" 2 r2 none =
        some (.success, s') ∧
      ngnLookup s'.ngnStore 0 =
        some { engA with
               entries := engA.entries ++ [{ task := 2, r := r2 }],
               no_assigned := engA.no_assigned + 1 } ∧
      (s'.tasks 2).frozen = true ∧
      s'.ngns = shedA.ngns ∧
      s'.nextNgnId = shedA.nextNgnId ∧
      (∀ j, j ≠ 0 → ngnLookup s'.ngnStore j = ngnLookup shedA.ngnStore j) :=
  C6_push_accept shedA "cgi" 2 r2 none 0 engA rfl rfl rfl rfl (by decide)
    (by decide)

/-- C7 (amended): push of a task flagged for strict serialized output is
refused immediately and no shed or engine state changes, but the status
returned is `APR_EOF` — the very same value used for the "end of stream"
outcome — rather than a status distinct from it. -/
theorem C7_serialized_refused :
    ∀ (s : ShedState) (ty : String) (tid : Nat) (r : RequestRec)
      (ei : Option EInit),
      (s.tasks tid).ser_headers = true →
      h2_ngn_shed_push_req s ty tid r ei = some (.eof, s) := by
  intro s ty tid r ei hser
  simp [h2_ngn_shed_push_req, hser]

/-- C7 witness: pushing serialized task 9 into `shedA` returns `APR_EOF`
with the state untouched. -/
theorem C7_witness :
    h2_ngn_shed_push_req shedA "cgi" 9 r0 none = some (.eof, shedA) :=
  C7_serialized_refused shedA "cgi" 9 r0 none rfl

/-- C7 counterexample: the "not eligible" outcome is not distinct from the
"end of stream" outcome.  On the same fresh shed, pushing serialized task
9 (the not-eligible path) and pushing ordinary task 1 with no engine and
no initializer (the end-of-stream path) return the very same status value
`APR_EOF`. -/
theorem C7_cex :
    (h2_ngn_shed_push_req shed0 "x" 9 r0 none).map Prod.fst =
      (h2_ngn_shed_push_req shed0 "x" 1 r0 none).map Prod.fst ∧
    (h2_ngn_shed_push_req shed0 "x" 9 r0 none).map Prod.fst =
      some AprStatus.eof :=
  ⟨rfl, rfl⟩

/-- C8: a pull on a non-aborted shed from an engine with an empty pending
queue sets the shutdown flag when `want_shutdown` is given, returns
end-of-stream if the engine is (now) shut down and try-again otherwise,
and returns no request; the counters are untouched (only the capacity is
refreshed from the caller). -/
theorem C8_pull_empty :
    ∀ (s : ShedState) (k : Nat) (ngn : Engine) (cap : Nat) (w : Bool),
      ngnLookup s.ngnStore k = some ngn →
      s.aborted = false →
      ngn.entries = [] →
      h2_ngn_shed_pull_req s k cap w =
        some ((if w || ngn.shutdown then AprStatus.eof else AprStatus.eagain),
          none,
          updateEngine s k (fun _ =>
            { ngn with capacity := u32 cap,
                       shutdown := w || ngn.shutdown })) ∧
      ngnLookup (updateEngine s k (fun _ =>
          { ngn with capacity := u32 cap,
                     shutdown := w || ngn.shutdown })).ngnStore k =
        some { ngn with capacity := u32 cap,
                        shutdown := w || ngn.shutdown } := by
  intro s k ngn cap w hl hab hE
  have hemp : ngn.entries.isEmpty = true := by rw [hE]; rfl
  constructor
  · simp only [h2_ngn_shed_pull_req, hl, hab, Bool.false_eq_true, if_false,
      hemp, if_true]
  · rw [updateEngine_store, ngnLookup_storeUpdate_self, hl]
    rfl

/-- C8 witness: pulling from `shedB` (empty queue) with `want_shutdown`
shuts the engine down and returns end-of-stream with no request. -/
theorem C8_witness :
    h2_ngn_shed_pull_req shedB 0 50 true =
      some (.eof, none,
        updateEngine shedB 0 (fun _ =>
          { engB with capacity := u32 50, shutdown := true })) :=
  (C8_pull_empty shedB 0 engB 50 true rfl rfl rfl).1

/-- C9: a push of a non-serialized task with no initializer, when no
engine of the type is registered or the registered one is shut down or at
capacity, returns `APR_EOF` (end of stream) and leaves the shed state —
engine map, counters, queues — entirely unchanged. -/
theorem C9_push_no_initializer :
    ∀ (s : ShedState) (ty : String) (tid : Nat) (r : RequestRec),
      (s.tasks tid).ser_headers = false →
      noCapacity s ty →
      h2_ngn_shed_push_req s ty tid r none = some (.eof, s) := by
  intro s ty tid r hser hnc
  rw [push_fallthrough s ty tid r none hser hnc]
  rfl

/-- C9 witness: pushing task 3 into the fresh `shed0` (no engine of type
"cgi") with no initializer yields end-of-stream and the identical state. -/
theorem C9_witness :
    h2_ngn_shed_push_req shed0 "cgi" 3 r0 none = some (.eof, shed0) :=
  C9_push_no_initializer shed0 "cgi" 3 r0 rfl nocap_shed0

/-- C10: on an aborted shed the only state change of pull is setting the
engine's shutdown flag — capacity, queue, counters, the type map and the
task heap are all untouched — whereas every completed pull on a
non-aborted shed updates the engine's capacity to the caller's desired
capacity. -/
theorem C10_pull_aborted_frame :
    ∀ (s : ShedState) (k : Nat) (ngn : Engine) (cap : Nat) (w : Bool),
      ngnLookup s.ngnStore k = some ngn →
      ((s.aborted = true →
        h2_ngn_shed_pull_req s k cap w =
          some (.econnaborted, none,
            updateEngine s k (fun _ => { ngn with shutdown := true })) ∧
        ngnLookup (updateEngine s k
            (fun _ => { ngn with shutdown := true })).ngnStore k =
          some { ngn with shutdown := true } ∧
        (updateEngine s k (fun _ => { ngn with shutdown := true })).ngns =
          s.ngns ∧
        (updateEngine s k (fun _ => { ngn with shutdown := true })).tasks =
          s.tasks ∧
        ({ ngn with shutdown := true } : Engine).capacity = ngn.capacity ∧
        ({ ngn with shutdown := true } : Engine).entries = ngn.entries ∧
        ({ ngn with shutdown := true } : Engine).no_assigned =
          ngn.no_assigned ∧
        ({ ngn with shutdown := true } : Engine).no_live = ngn.no_live ∧
        ({ ngn with shutdown := true } : Engine).no_finished =
          ngn.no_finished) ∧
      (s.aborted = false →
        ∀ st pr s', h2_ngn_shed_pull_req s k cap w = some (st, pr, s') →
          ∃ e', ngnLookup s'.ngnStore k = some e' ∧
            e'.capacity = u32 cap)) := by
  intro s k ngn cap w hl
  constructor
  · intro ha
    refine ⟨pull_on_aborted s k ngn cap w hl ha, ?_, rfl, rfl, rfl, rfl,
      rfl, rfl, rfl⟩
    rw [updateEngine_store, ngnLookup_storeUpdate_self, hl]
    rfl
  · intro hab st pr s' h
    rw [h2_ngn_shed_pull_req] at h
    split at h
    · exact Option.noConfusion h
    · rename_i ngn0 hl0
      split at h
      · rename_i ha0
        rw [hab] at ha0
        exact Bool.noConfusion ha0
      · split at h
        · obtain ⟨_, _, rfl⟩ := some_triple_inj h
          refine ⟨({ ngn0 with
              capacity := u32 cap,
              shutdown := w || ngn0.shutdown } : Engine), ?_, rfl⟩
          rw [updateEngine_store, ngnLookup_storeUpdate_self, hl0]
          rfl
        · split at h
          · rename_i entry rest hp
            obtain ⟨_, _, rfl⟩ := some_triple_inj h
            refine ⟨({ ngn0 with
                capacity := u32 cap,
                entries := rest,
                no_live := u32 (ngn0.no_live + 1) } : Engine), ?_, rfl⟩
            rw [updateEngine_store, ngnLookup_storeUpdate_self, hl0]
            rfl
          · obtain ⟨_, _, rfl⟩ := some_triple_inj h
            refine ⟨{ ngn0 with capacity := u32 cap }, ?_, rfl⟩
            rw [updateEngine_store, ngnLookup_storeUpdate_self, hl0]
            rfl

/-- C10 witness: pulling on an aborted shed with desired capacity 42 does
not update engine 0's capacity (it stays 100) and only sets shutdown. -/
theorem C10_witness :
    h2_ngn_shed_pull_req (h2_ngn_shed_abort shedB) 0 42 false =
      some (.econnaborted, none,
        updateEngine (h2_ngn_shed_abort shedB) 0
          (fun _ => { engB with shutdown := true })) ∧
    ({ engB with shutdown := true } : Engine).capacity = engB.capacity :=
  ⟨((C10_pull_aborted_frame (h2_ngn_shed_abort shedB) 0 engB 42 false
        rfl).1 rfl).1,
   ((C10_pull_aborted_frame (h2_ngn_shed_abort shedB) 0 engB 42 false
        rfl).1 rfl).2.2.2.2.1⟩

end NgnShed
